import Mathlib

/-
Shallow embedding of the agric-trade-system repository (src/trade): the data
model (models.py), the ingestion pipeline and the aggregation engine
(views.py).  Machine-level collections are Lean lists, Django query sets are
lists of records, SQL decimals are rationals, and the record-store operations
(bulk_create with its unique-code constraint, the declared column bounds of
the TradeData table) are explicit functions on a Store value.
-/

namespace AgricTrade

/-! ## Rounding

Python `round` on `Decimal` values quantizes with ROUND_HALF_EVEN; we model it
on rationals: round to the nearest integer, ties to the even neighbour. -/

/-- Round a rational to the nearest integer, ties to even (banker rounding,
the semantics of Python `round` on `Decimal`), computed on the reduced
numerator and denominator so the kernel can evaluate it. -/
def roundHE (q : ℚ) : ℤ :=
  let f : ℤ := Int.fdiv q.num (q.den : ℤ)
  let rem : ℤ := q.num - f * (q.den : ℤ)
  if 2 * rem < (q.den : ℤ) then f
  else if (q.den : ℤ) < 2 * rem then f + 1
  else if f % 2 = 0 then f else f + 1

/-- Python `round(q, 2)`. -/
def round2 (q : ℚ) : ℚ := (roundHE (q * 100) : ℚ) / 100

/-! ## String helpers

`pandas` `.str.strip()` / `.str.upper()` on the ASCII data these claims use.
`String` is a structure over `List Char` at this Lean version, so the helpers
work on the character list directly and stay kernel-reducible. -/

/-- Python `str.strip`: drop leading and trailing whitespace. -/
def str_strip (s : String) : String :=
  ⟨((s.data.dropWhile Char.isWhitespace).reverse.dropWhile Char.isWhitespace).reverse⟩

/-- Python `str.upper` (ASCII range, which covers the trade-direction data). -/
def str_upper (s : String) : String := ⟨s.data.map Char.toUpper⟩

/-- Lower-cased character list of a string, for case-insensitive matching. -/
def lowerChars (s : String) : List Char := s.data.map Char.toLower

/-- Django `icontains`: case-insensitive substring match of the needle in the
haystack. -/
def icontains (hay needle : String) : Bool :=
  decide (lowerChars needle <:+: lowerChars hay)

/-! ## Data model (src/trade/models.py) -/

/-- An HSCode catalog row.  `code` carries a unique constraint in the schema.
The derived prefix columns (chapter/heading/subheading) are set by
`HSCode.save`, which `bulk_create` bypasses; no claim touches them, so they
are omitted from the embedding. -/
structure HSCode where
  code : String
  description : String
deriving DecidableEq

/-- A TradeData row.  `hs_code` is the (non-null) foreign key target embedded
by value; `country` is a non-null CharField, so SQL NULL is not
representable, only the empty string. -/
structure TradeData where
  year : Int
  month : Int
  trade_type : String
  hs_code : HSCode
  country : String
  quantity : ℚ
  unit : Option String
  value_usd : ℚ
deriving DecidableEq

/-- The durable record store: the HSCode table and the TradeData table, each
in insertion order (new rows are appended). -/
structure Store where
  hs : List HSCode
  trades : List TradeData
deriving DecidableEq

/-- One decoded, loosely-typed upload row after pandas has parsed the file:
the eight required columns, numeric cells already numeric. -/
structure Row where
  year : Int
  month : Int
  trade_type : String
  hs_code : String
  country : String
  quantity : ℚ
  description : String
  value_usd : ℚ
deriving DecidableEq

/-- The failure kinds of an ingestion attempt (spec section 7 taxonomy). -/
inductive UploadError where
  | UnsupportedFormatError
  | DecodeError
  | MissingColumnsError
  | CatalogWriteError
  | BuildError
  | InsertError
deriving DecidableEq

deriving instance DecidableEq for Except

/-! ## Ingestion: normalization (views.py lines 103-108) -/

/-- Per-row normalization: strip the hs_code, upper-case then strip the
trade_type (views.py lines 104-105). -/
def prepRow (r : Row) : Row :=
  { r with hs_code := str_strip r.hs_code,
           trade_type := str_strip (str_upper r.trade_type) }

/-- Month-range check of views.py line 108. -/
def monthOk (r : Row) : Bool := decide (1 ≤ r.month) && decide (r.month ≤ 12)

/-- The dataframe after lines 103-108: normalized cells, rows with month
outside [1,12] dropped. -/
def normalizeRows (df : List Row) : List Row :=
  (df.map prepRow).filter monthOk

/-! ## Ingestion: catalog resolution (views.py lines 110-133) -/

/-- Model of pandas `drop_duplicates()`: keep the first occurrence of each element,
preserving order. -/
def dropDuplicates {α : Type} [DecidableEq α] (l : List α) : List α :=
  l.foldl (fun acc x => if x ∈ acc then acc else acc ++ [x]) []

/-- Source views.py line 110: the distinct (hs_code, description) pairs of the
batch, first occurrence first.  Note the dedup key is the pair, not the code
alone. -/
def unique_hs_codes (df : List Row) : List (String × String) :=
  dropDuplicates (df.map fun r => (r.hs_code, r.description))

/-- Whether the catalog already holds an entry with this code. -/
def hasCode (hsList : List HSCode) (c : String) : Bool :=
  hsList.any fun h => h.code == c

/-- Source views.py lines 118-127: the HSCode objects built for codes not already in
the catalog (`existing_hs` is preloaded once and never updated inside the
loop). -/
def newCatalogObjects (store : Store) (pairs : List (String × String)) : List HSCode :=
  (pairs.filter fun p => ! hasCode store.hs p.1).map fun p =>
    { code := p.1, description := p.2 }

/-- Whether a batch of HSCode objects carries pairwise distinct codes. -/
def codesDistinct : List HSCode → Bool
  | [] => true
  | h :: t => (! t.any fun x => x.code == h.code) && codesDistinct t

/-- Model of `HSCode.objects.bulk_create` (views.py line 130): one atomic insert that
the store rejects whenever the unique constraint on `code` would be violated,
either inside the batch or against existing rows. -/
def bulk_create_hs (store : Store) (batch : List HSCode) : Except UploadError Store :=
  if codesDistinct batch && batch.all (fun b => ! hasCode store.hs b.code) then
    .ok { store with hs := store.hs ++ batch }
  else
    .error .CatalogWriteError

/-! ## Ingestion: record construction and atomic insert (views.py 135-154) -/

/-- The dict lookup `all_hs[row.hs_code]` over the reloaded catalog. -/
def findHS (hsList : List HSCode) (c : String) : Option HSCode :=
  hsList.find? fun h => h.code == c

/-- Source views.py lines 137-149: build one TradeData object per normalized row; a
missing catalog entry is the KeyError of `all_hs[row.hs_code]`. -/
def buildTrades (hsList : List HSCode) : List Row → Except UploadError (List TradeData)
  | [] => .ok []
  | r :: rs =>
    match findHS hsList r.hs_code with
    | none => .error .BuildError
    | some h =>
      match buildTrades hsList rs with
      | .error e => .error e
      | .ok ts =>
        .ok ({ year := r.year, month := r.month, trade_type := r.trade_type,
               hs_code := h, country := r.country, quantity := r.quantity,
               unit := none, value_usd := r.value_usd } :: ts)

/-- Declared range of a PositiveSmallIntegerField column. -/
def fitsSmallPositive (n : Int) : Bool := decide (0 ≤ n) && decide (n ≤ 32767)

/-- Declared range of a numeric(18,2) column. -/
def fitsDecimal18_2 (q : ℚ) : Bool :=
  decide (-(10 ^ 16 : ℚ) < q) && decide (q < 10 ^ 16)

/-- The column constraints the TradeData table declares (models.py lines
37-51): small positive year and month, trade_type at most 6 characters,
country at most 100, 18-digit 2-place decimals. -/
def validTrade (t : TradeData) : Bool :=
  fitsSmallPositive t.year && fitsSmallPositive t.month
    && decide (t.trade_type.length ≤ 6) && decide (t.country.length ≤ 100)
    && fitsDecimal18_2 t.quantity && fitsDecimal18_2 t.value_usd

/-- Model of `TradeData.objects.bulk_create` inside `transaction.atomic()` (views.py
lines 151-152): all rows are appended, or none is and the insert errors. -/
def bulk_create_trades (store : Store) (batch : List TradeData) : Except UploadError Store :=
  if batch.all validTrade then
    .ok { store with trades := store.trades ++ batch }
  else
    .error .InsertError

/-- Model of `TradeUploadView.process_dataframe` (views.py lines 101-154): normalize,
resolve the catalog (committed immediately), build the record objects, then
insert them in one transaction; returns the inserted count. -/
def process_dataframe (df : List Row) (store : Store) : Except UploadError Nat × Store :=
  let df2 := normalizeRows df
  let batch := newCatalogObjects store (unique_hs_codes df2)
  match bulk_create_hs store batch with
  | .error e => (.error e, store)
  | .ok s1 =>
    match buildTrades s1.hs df2 with
    | .error e => (.error e, s1)
    | .ok ts =>
      match bulk_create_trades s1 ts with
      | .error e => (.error e, s1)
      | .ok s2 => (.ok ts.length, s2)

/-! ## Upload entry point: required-column check (views.py lines 53-66) -/

/-- The required column set of views.py lines 53-62. -/
def required_columns : List String :=
  ["year", "month", "trade_type", "hs_code", "country", "quantity",
   "description", "value_usd"]

/-- The required columns absent from the uploaded header. -/
def missingColumns (cols : List String) : List String :=
  required_columns.filter fun c => ! cols.contains c

/-- The literal user-facing message of views.py line 65. -/
def missing_columns_message : String := "Missing required columns in file."

/-- Model of `TradeUploadView.post` from the column check on (views.py lines 64-68):
reject the upload before touching the store when a required column is
missing, otherwise run `process_dataframe`. -/
def upload_post (cols : List String) (df : List Row) (store : Store) :
    Except UploadError Nat × Store :=
  if (missingColumns cols).isEmpty then process_dataframe df store
  else (.error .MissingColumnsError, store)

/-! ## Filter predicate builder (TradeDataListView.get_queryset, views.py
lines 167-195) -/

/-- The optional query parameters of the dashboard and export requests.
`crop` is read only by the export view, `trade_type` and `search` only by the
list view. -/
structure QueryParams where
  year : Option Int := none
  month : Option Int := none
  trade_type : Option String := none
  country : Option String := none
  search : Option String := none
  crop : Option String := none
deriving DecidableEq

/-- The free-text search of views.py lines 188-193: case-insensitive
substring match against the related catalog code or description. -/
def matchesSearch (s : String) (t : TradeData) : Bool :=
  icontains t.hs_code.code s || icontains t.hs_code.description s

/-- Model of `TradeDataListView.get_queryset`: sequential optional exact-match filters
plus the free-text search, over the whole trade table. -/
def get_queryset (p : QueryParams) (store : Store) : List TradeData :=
  let q0 := store.trades
  let q1 := match p.year with
    | none => q0
    | some y => q0.filter fun t => t.year == y
  let q2 := match p.month with
    | none => q1
    | some m => q1.filter fun t => t.month == m
  let q3 := match p.trade_type with
    | none => q2
    | some tt => q2.filter fun t => t.trade_type == tt
  let q4 := match p.country with
    | none => q3
    | some c => q3.filter fun t => t.country == c
  match p.search with
  | none => q4
  | some s => q4.filter fun t => matchesSearch s t

/-! ## Aggregation engine (TradeDataListView.get_context_data, views.py
lines 197-293) -/

/-- Django `Sum` aggregation: SQL NULL (here `none`) over the empty set,
otherwise the sum. -/
def djSum (l : List ℚ) : Option ℚ := if l.isEmpty then none else some l.sum

/-- Model of `values(key).annotate(total_value=Sum("value_usd"))`: one (key, total)
row per distinct key, keys in first-occurrence order. -/
def groupTotals {κ : Type} [DecidableEq κ] (key : TradeData → κ)
    (rs : List TradeData) : List (κ × ℚ) :=
  (dropDuplicates (rs.map key)).map fun k =>
    (k, ((rs.filter fun t => decide (key t = k)).map fun t => t.value_usd).sum)

/-- Stable descending insertion: x is placed before the first element it
strictly beats under `gt`. -/
def insertGT {α : Type} (gt : α → α → Bool) (x : α) : List α → List α
  | [] => [x]
  | y :: ys => if gt x y then x :: y :: ys else y :: insertGT gt x ys

/-- Stable sort through repeated insertion: a deterministic refinement of the
SQL `order_by` whose tie order the engine leaves unspecified. -/
def sortGT {α : Type} (gt : α → α → Bool) (l : List α) : List α :=
  l.foldl (fun acc x => insertGT gt x acc) []

/-- Descending comparison on the aggregated total of a group row. -/
def byTotalDesc {κ : Type} (a b : κ × ℚ) : Bool := decide (b.2 < a.2)

/-- Source views.py lines 203-211: the three overall totals, `None` coalesced
to 0. -/
def totalQuantity (rs : List TradeData) : ℚ :=
  (djSum (rs.map fun t => t.quantity)).getD 0

/-- Overall value total of the filtered view (`Sum("value_usd")` with `or
0`). -/
def totalValue (rs : List TradeData) : ℚ :=
  (djSum (rs.map fun t => t.value_usd)).getD 0

/-- Model of `Count("id")` over the filtered view. -/
def totalRecords (rs : List TradeData) : Nat := rs.length

/-- Source views.py lines 214-220: top 10 countries by total value, after excluding
NULL and empty-string countries (the country column is non-null here, so only
the empty string is filtered away). -/
def topCountries (rs : List TradeData) : List (String × ℚ) :=
  (sortGT byTotalDesc
    (groupTotals (fun t => t.country) (rs.filter fun t => ! (t.country == "")))).take 10

/-- Source views.py lines 224-228: top 10 commodity (code, description) groups by
total value, with no exclusion. -/
def topHsCodes (rs : List TradeData) : List ((String × String) × ℚ) :=
  (sortGT byTotalDesc
    (groupTotals (fun t => (t.hs_code.code, t.hs_code.description)) rs)).take 10

/-- Source views.py lines 232-236: the per-direction value totals. -/
def trade_split_base (rs : List TradeData) : List (String × ℚ) :=
  groupTotals (fun t => t.trade_type) rs

/-- Source views.py line 237: the cross-direction grand total. -/
def total_trade (rs : List TradeData) : ℚ :=
  ((trade_split_base rs).map fun i => i.2).sum

/-- Source views.py lines 232-243: each direction with its total and its percentage
of the grand total; the percentage falls back to 0 unless the grand total is
strictly positive. -/
def trade_split (rs : List TradeData) : List (String × ℚ × ℚ) :=
  (trade_split_base rs).map fun item =>
    (item.1, item.2,
      if 0 < total_trade rs then round2 (item.2 / total_trade rs * 100) else 0)

/-- Source views.py lines 246-253: share of the overall value carried by the top-10
commodity groups, 0 when the overall total is not positive, rounded to two
places. -/
def concentration (rs : List TradeData) : ℚ :=
  let top_total := ((topHsCodes rs).map fun i => i.2).sum
  let overall_total := (djSum (rs.map fun t => t.value_usd)).getD 0
  round2 (if 0 < overall_total then top_total / overall_total * 100 else 0)

/-- Source views.py lines 256-268: the trade balance as written in the source — the
value total of rows whose trade_type is exactly the string "Export" minus the
total of rows whose trade_type is exactly "Import". -/
def trade_balance (rs : List TradeData) : ℚ :=
  ((djSum ((rs.filter fun t => t.trade_type == "Export").map fun t => t.value_usd)).getD 0)
    - ((djSum ((rs.filter fun t => t.trade_type == "Import").map fun t => t.value_usd)).getD 0)

/-- Modelled from the spec: the trade balance the specification describes,
total value over records whose direction is the stored upper-case string
"EXPORT" minus the total over those stored as "IMPORT". -/
def specTradeBalance (rs : List TradeData) : ℚ :=
  (((rs.filter fun t => t.trade_type == "EXPORT").map fun t => t.value_usd).sum)
    - (((rs.filter fun t => t.trade_type == "IMPORT").map fun t => t.value_usd).sum)

/-! ## Export surface (export_filtered_data, views.py lines 297-353) -/

/-- One data row of the export stream, with the cell values still typed (the
textual rendering of numbers is outside the embedding). -/
structure ExportRow where
  year : Int
  month : Int
  country : String
  hsCode : String
  description : String
  tradeType : String
  quantity : ℚ
  valueUsd : ℚ
deriving DecidableEq

/-- The header row written at views.py lines 326-337. -/
def export_header : List String :=
  ["Year", "Month", "Country", "HS Code", "Description", "Trade Type",
   "Quantity", "Value (USD)"]

/-- Source views.py lines 340-352: the cells written for one record (the FK is
non-null, so the `if obj.hs_code` guard of the source is always taken). -/
def toExportRow (t : TradeData) : ExportRow :=
  { year := t.year, month := t.month, country := t.country,
    hsCode := t.hs_code.code, description := t.hs_code.description,
    tradeType := t.trade_type, quantity := t.quantity,
    valueUsd := t.value_usd }

/-- The filters the export view actually applies (views.py lines 302-317):
year, month, crop (exact match on the catalog description) and country —
trade_type and search are never read. -/
def export_seq_filter (p : QueryParams) (trades : List TradeData) : List TradeData :=
  let q1 := match p.year with
    | none => trades
    | some y => trades.filter fun t => t.year == y
  let q2 := match p.month with
    | none => q1
    | some m => q1.filter fun t => t.month == m
  let q3 := match p.crop with
    | none => q2
    | some c => q2.filter fun t => t.hs_code.description == c
  match p.country with
  | none => q3
  | some c => q3.filter fun t => t.country == c

/-- The default ordering of the TradeData table (models.py line 63:
`ordering = ["-year", "-month"]`), as a stable descending comparison. -/
def defaultGT (a b : TradeData) : Bool :=
  decide (b.year < a.year) || (a.year == b.year && decide (b.month < a.month))

/-- Model of `export_filtered_data`: header plus one row per record passing the
filters of the export view itself, in the default order of the store. -/
def export_filtered_data (p : QueryParams) (store : Store) :
    List String × List ExportRow :=
  (export_header,
   (sortGT defaultGT (export_seq_filter p store.trades)).map toExportRow)

/-- Optional-parameter match: `true` when the parameter is absent. -/
def optB {α : Type} (o : Option α) (f : α → Bool) : Bool :=
  match o with
  | none => true
  | some a => f a

/-- The conjunction of the four filters the export view applies, as one
predicate. -/
def exportPred (p : QueryParams) (t : TradeData) : Bool :=
  optB p.year (fun y => t.year == y) && optB p.month (fun m => t.month == m)
    && optB p.crop (fun c => t.hs_code.description == c)
    && optB p.country (fun c => t.country == c)

/-! ## Encoding-fallback decoder (TradeUploadView.read_csv_safely, views.py
lines 80-98)

A byte is `Fin 256`; a decoded text is its code-point list.  The three
codecs Python is asked for are modelled by their decode functions: strict
UTF-8, latin1 (ISO-8859-1, total on bytes), and cp1252 (undefined on the five
bytes 0x81, 0x8D, 0x8F, 0x90, 0x9D). -/

/-- UTF-8 continuation byte. -/
def isCont (b : Fin 256) : Bool := decide (128 ≤ b.val) && decide (b.val ≤ 191)

/-- Strict UTF-8 decoding to code points (rejecting overlong forms,
surrogates and values past U+10FFFF, as the Python utf-8 codec does); `none` on
any ill-formed input. -/
def utf8Decode : List (Fin 256) → Option (List Nat)
  | [] => some []
  | b :: rest =>
    let n := b.val
    if n ≤ 0x7F then
      (utf8Decode rest).map fun s => n :: s
    else if 0xC2 ≤ n && n ≤ 0xDF then
      match rest with
      | c1 :: rest2 =>
        if isCont c1 then
          (utf8Decode rest2).map fun s => ((n - 0xC0) * 64 + (c1.val - 0x80)) :: s
        else none
      | [] => none
    else if 0xE0 ≤ n && n ≤ 0xEF then
      match rest with
      | c1 :: c2 :: rest2 =>
        let ok1 :=
          if n == 0xE0 then decide (0xA0 ≤ c1.val) && decide (c1.val ≤ 0xBF)
          else if n == 0xED then decide (0x80 ≤ c1.val) && decide (c1.val ≤ 0x9F)
          else isCont c1
        if ok1 && isCont c2 then
          (utf8Decode rest2).map fun s =>
            ((n - 0xE0) * 4096 + (c1.val - 0x80) * 64 + (c2.val - 0x80)) :: s
        else none
      | _ => none
    else if 0xF0 ≤ n && n ≤ 0xF4 then
      match rest with
      | c1 :: c2 :: c3 :: rest2 =>
        let ok1 :=
          if n == 0xF0 then decide (0x90 ≤ c1.val) && decide (c1.val ≤ 0xBF)
          else if n == 0xF4 then decide (0x80 ≤ c1.val) && decide (c1.val ≤ 0x8F)
          else isCont c1
        if ok1 && isCont c2 && isCont c3 then
          (utf8Decode rest2).map fun s =>
            ((n - 0xF0) * 262144 + (c1.val - 0x80) * 4096
              + (c2.val - 0x80) * 64 + (c3.val - 0x80)) :: s
        else none
      | _ => none
    else none

/-- latin1 (ISO-8859-1): every byte is the code point of the same value, so
decoding never fails. -/
def latin1Decode (l : List (Fin 256)) : List Nat := l.map fun b => b.val

/-- cp1252 per-byte mapping: the Windows-1252 table on 0x80-0x9F, identity
elsewhere, undefined on the five unassigned bytes. -/
def cp1252Map (n : Nat) : Option Nat :=
  match n with
  | 0x80 => some 0x20AC
  | 0x81 => none
  | 0x82 => some 0x201A
  | 0x83 => some 0x0192
  | 0x84 => some 0x201E
  | 0x85 => some 0x2026
  | 0x86 => some 0x2020
  | 0x87 => some 0x2021
  | 0x88 => some 0x02C6
  | 0x89 => some 0x2030
  | 0x8A => some 0x0160
  | 0x8B => some 0x2039
  | 0x8C => some 0x0152
  | 0x8D => none
  | 0x8E => some 0x017D
  | 0x8F => none
  | 0x90 => none
  | 0x91 => some 0x2018
  | 0x92 => some 0x2019
  | 0x93 => some 0x201C
  | 0x94 => some 0x201D
  | 0x95 => some 0x2022
  | 0x96 => some 0x2013
  | 0x97 => some 0x2014
  | 0x98 => some 0x02DC
  | 0x99 => some 0x2122
  | 0x9A => some 0x0161
  | 0x9B => some 0x203A
  | 0x9C => some 0x0153
  | 0x9D => none
  | 0x9E => some 0x017E
  | 0x9F => some 0x0178
  | m => some m

/-- cp1252 decoding of a byte stream; fails on any unassigned byte. -/
def cp1252Decode : List (Fin 256) → Option (List Nat)
  | [] => some []
  | b :: rest =>
    match cp1252Map b.val with
    | none => none
    | some c => (cp1252Decode rest).map fun s => c :: s

/-- Model of `TradeUploadView.read_csv_safely` (views.py lines 80-98): try UTF-8; on a
decode error try latin1; on a decode error fall through to cp1252, whose
failure would escape as the terminal decode error. -/
def read_csv_safely (raw : List (Fin 256)) : Except UploadError (List Nat) :=
  match utf8Decode raw with
  | some s => .ok s
  | none =>
    match some (latin1Decode raw) with
    | some s => .ok s
    | none =>
      match cp1252Decode raw with
      | some s => .ok s
      | none => .error .DecodeError

/-! ## Concrete stores and batches used by the claim theorems -/

/-- The empty store. -/
def storeEmpty : Store := { hs := [], trades := [] }

/-- The catalog entry shared by several concrete scenarios. -/
def hsHorses : HSCode := { code := "0101", description := "Horses" }

/-- Upload row: an export of value 300, direction written in lower case as an
uploader would. -/
def rowExp : Row :=
  { year := 2023, month := 1, trade_type := "export", hs_code := "0101",
    country := "Kenya", quantity := 1, description := "Horses",
    value_usd := 300 }

/-- Upload row: an import of value 100, direction in mixed case with
whitespace. -/
def rowImp : Row :=
  { year := 2023, month := 1, trade_type := " Import", hs_code := "0101",
    country := "Nigeria", quantity := 1, description := "Horses",
    value_usd := 100 }

/-- The stored record the export row normalizes to. -/
def tExpC1 : TradeData :=
  { year := 2023, month := 1, trade_type := "EXPORT", hs_code := hsHorses,
    country := "Kenya", quantity := 1, unit := none, value_usd := 300 }

/-- The stored record the import row normalizes to. -/
def tImpC1 : TradeData :=
  { year := 2023, month := 1, trade_type := "IMPORT", hs_code := hsHorses,
    country := "Nigeria", quantity := 1, unit := none, value_usd := 100 }

/-- The store after ingesting the two-row batch above into an empty store. -/
def storeC1 : Store := { hs := [hsHorses], trades := [tExpC1, tImpC1] }

/-- Upload row: code 0101 with description variant A. -/
def rowDescA : Row :=
  { year := 2023, month := 1, trade_type := "IMPORT", hs_code := "0101",
    country := "Kenya", quantity := 1, description := "Horses A",
    value_usd := 10 }

/-- Upload row: the same code 0101 with description variant B. -/
def rowDescB : Row :=
  { year := 2023, month := 1, trade_type := "IMPORT", hs_code := "0101",
    country := "Kenya", quantity := 1, description := "Horses B",
    value_usd := 20 }

/-! ## C1 — trade balance vs stored trade directions -/

/-- C1: ingesting an upper-casing batch (one EXPORT of 300, one IMPORT of
100) succeeds and stores the directions as "EXPORT"/"IMPORT", yet the
trade balance of the engine over that view is 0, not the 300 - 100 = 200 the claim
requires: the balance computation filters on the title-case strings "Export"
and "Import", which never match the stored values. -/
theorem trade_balance_case_mismatch :
    process_dataframe [rowExp, rowImp] storeEmpty = (.ok 2, storeC1) ∧
    trade_balance storeC1.trades = 0 ∧
    specTradeBalance storeC1.trades = 200 ∧ (0 : ℚ) ≠ 200 := by
  refine ⟨by decide, ?_, ?_, by norm_num⟩
  · simp [trade_balance, djSum, storeC1, tExpC1, tImpC1, hsHorses]
  · simp [specTradeBalance, storeC1, tExpC1, tImpC1, hsHorses]
    norm_num

/-! ## C2 — catalog deduplication within one batch -/

/-- C2: a batch in which the same code 0101 carries two different
descriptions does not create exactly one catalog entry with the first
description — the pair-wise `drop_duplicates` keeps both pairs, the insert
batch holds two objects with the same unique-constrained code, and the
catalog write fails, aborting the ingestion with no entry created at all. -/
theorem duplicate_description_catalog_failure :
    newCatalogObjects storeEmpty (unique_hs_codes (normalizeRows [rowDescA, rowDescB]))
      = [{ code := "0101", description := "Horses A" },
         { code := "0101", description := "Horses B" }] ∧
    process_dataframe [rowDescA, rowDescB] storeEmpty
      = (.error .CatalogWriteError, storeEmpty) := by
  decide

/-! ## C4 — zero-safe metrics on the empty view -/

/-- C4: over an empty filtered set every aggregate degrades to zero or empty:
total quantity, value and record count are 0, the concentration share and the
trade balance are 0, and both top-10 breakdowns and the direction split are
empty. -/
theorem empty_view_zero_metrics :
    totalQuantity [] = 0 ∧ totalValue [] = 0 ∧ totalRecords [] = 0 ∧
    concentration [] = 0 ∧ trade_balance [] = 0 ∧
    topCountries [] = [] ∧ topHsCodes [] = [] ∧ trade_split [] = [] := by
  refine ⟨by decide, by decide, by decide, ?_, ?_, by decide, by decide, by decide⟩
  · simp [concentration, topHsCodes, groupTotals, dropDuplicates, sortGT, djSum,
          round2, roundHE]
  · simp [trade_balance, djSum]

/-! ## Structural lemmas about the ingestion coordinator -/

/-- The catalog bulk insert either rejects the whole batch or appends it. -/
lemma bulk_create_hs_cases (store : Store) (batch : List HSCode) :
    bulk_create_hs store batch = .error .CatalogWriteError ∨
    bulk_create_hs store batch = .ok { store with hs := store.hs ++ batch } := by
  unfold bulk_create_hs
  split
  · right; rfl
  · left; rfl

/-- The record bulk insert either rejects the whole batch or appends it. -/
lemma bulk_create_trades_cases (store : Store) (batch : List TradeData) :
    bulk_create_trades store batch = .error .InsertError ∨
    bulk_create_trades store batch = .ok { store with trades := store.trades ++ batch } := by
  unfold bulk_create_trades
  split
  · right; rfl
  · left; rfl

/-- Record construction fails only with the lookup KeyError. -/
lemma buildTrades_error_eq (hsList : List HSCode) (rows : List Row) (e : UploadError)
    (h : buildTrades hsList rows = .error e) : e = .BuildError := by
  induction rows with
  | nil => simp [buildTrades] at h
  | cons r rs ih =>
    unfold buildTrades at h
    cases hf : findHS hsList r.hs_code with
    | none =>
      rw [hf] at h
      injection h with h2
      exact h2.symm
    | some hsc =>
      rw [hf] at h
      cases hb : buildTrades hsList rs with
      | error e2 =>
        rw [hb] at h
        injection h with h2
        exact ih (h2 ▸ hb)
      | ok ts =>
        rw [hb] at h
        exact absurd h (by simp)

/-- Construction preserves the month of every row. -/
lemma buildTrades_months (hsList : List HSCode) (rows : List Row) (ts : List TradeData)
    (h : buildTrades hsList rows = .ok ts) :
    ts.map (fun t => t.month) = rows.map (fun r => r.month) := by
  induction rows generalizing ts with
  | nil =>
    simp [buildTrades] at h
    simp [← h]
  | cons r rs ih =>
    unfold buildTrades at h
    cases hf : findHS hsList r.hs_code with
    | none => rw [hf] at h; exact absurd h (by simp)
    | some hsc =>
      rw [hf] at h
      cases hb : buildTrades hsList rs with
      | error e2 => rw [hb] at h; exact absurd h (by simp)
      | ok ts2 =>
        rw [hb] at h
        injection h with h2
        rw [← h2]
        simp [ih ts2 hb]

/-- Full case breakdown of one ingestion attempt: on any error the trade
table is untouched and the catalog is either untouched (catalog-write
failure) or extended by exactly the new batch entries (construction or insert
failure, after the catalog commit); on success the trades of the built batch
are appended and counted. -/
lemma process_dataframe_spec (df : List Row) (store : Store) :
    (∀ e s', process_dataframe df store = (.error e, s') →
        s'.trades = store.trades ∧
        ((e = .CatalogWriteError ∧ s'.hs = store.hs) ∨
         ((e = .BuildError ∨ e = .InsertError) ∧
          s'.hs = store.hs ++ newCatalogObjects store (unique_hs_codes (normalizeRows df))))) ∧
    (∀ n s', process_dataframe df store = (.ok n, s') →
        ∃ ts, buildTrades (store.hs ++ newCatalogObjects store (unique_hs_codes (normalizeRows df)))
                (normalizeRows df) = .ok ts ∧
          s'.trades = store.trades ++ ts ∧ n = ts.length ∧
          s'.hs = store.hs ++ newCatalogObjects store (unique_hs_codes (normalizeRows df))) := by
  rcases bulk_create_hs_cases store (newCatalogObjects store (unique_hs_codes (normalizeRows df)))
    with hbc | hbc
  · constructor
    · intro e s' h
      simp only [process_dataframe, hbc] at h
      injection h with h1 h2
      injection h1 with h3
      exact ⟨h2 ▸ rfl, Or.inl ⟨h3.symm, h2 ▸ rfl⟩⟩
    · intro n s' h
      simp only [process_dataframe, hbc] at h
      exact absurd h (by simp)
  · cases hbt : buildTrades (store.hs ++ newCatalogObjects store (unique_hs_codes (normalizeRows df)))
        (normalizeRows df) with
    | error e2 =>
      constructor
      · intro e s' h
        simp only [process_dataframe, hbc, hbt] at h
        injection h with h1 h2
        injection h1 with h3
        refine ⟨h2 ▸ rfl, Or.inr ⟨Or.inl ?_, h2 ▸ rfl⟩⟩
        exact h3 ▸ buildTrades_error_eq _ _ _ hbt
      · intro n s' h
        simp only [process_dataframe, hbc, hbt] at h
        exact absurd h (by simp)
    | ok ts =>
      rcases bulk_create_trades_cases
          { store with hs := store.hs ++ newCatalogObjects store (unique_hs_codes (normalizeRows df)) } ts
        with hct | hct
      · constructor
        · intro e s' h
          simp only [process_dataframe, hbc, hbt, hct] at h
          injection h with h1 h2
          injection h1 with h3
          exact ⟨h2 ▸ rfl, Or.inr ⟨Or.inr h3.symm, h2 ▸ rfl⟩⟩
        · intro n s' h
          simp only [process_dataframe, hbc, hbt, hct] at h
          exact absurd h (by simp)
      · constructor
        · intro e s' h
          simp only [process_dataframe, hbc, hbt, hct] at h
          exact absurd h (by simp)
        · intro n s' h
          simp only [process_dataframe, hbc, hbt, hct] at h
          injection h with h1 h2
          injection h1 with h3
          exact ⟨ts, rfl, h2 ▸ rfl, h3.symm, h2 ▸ rfl⟩

/-! ## C3 — transactional record insert, non-rolled-back catalog -/

/-- C3: whenever an ingestion attempt fails — during catalog write, record
construction or the batch insert — no trade record of the batch is
persisted, and when the failure happens after the catalog commit
(construction or insert failure) the committed catalog entries remain; on
success the coordinator appends the batch and returns its length as the
inserted count. -/
theorem process_dataframe_atomic (df : List Row) (store : Store) :
    (∀ e s', process_dataframe df store = (.error e, s') →
        s'.trades = store.trades ∧ store.hs <+: s'.hs ∧
        ((e = .BuildError ∨ e = .InsertError) →
          s'.hs = store.hs ++ newCatalogObjects store (unique_hs_codes (normalizeRows df)))) ∧
    (∀ n s', process_dataframe df store = (.ok n, s') →
        ∃ ts, s'.trades = store.trades ++ ts ∧ n = ts.length) := by
  constructor
  · intro e s' h
    rcases (process_dataframe_spec df store).1 e s' h with ⟨ht, hc⟩
    refine ⟨ht, ?_, ?_⟩
    · rcases hc with ⟨-, hh⟩ | ⟨-, hh⟩
      · rw [hh]
      · rw [hh]; exact ⟨_, rfl⟩
    · intro he
      rcases hc with ⟨hcw, -⟩ | ⟨-, hh⟩
      · rcases he with he | he <;> rw [hcw] at he <;> exact absurd he (by simp)
      · exact hh
  · intro n s' h
    rcases (process_dataframe_spec df store).2 n s' h with ⟨ts, -, h1, h2, -⟩
    exact ⟨ts, h1, h2⟩

/-- A row whose year overflows the positive-small-integer column, so the
batch insert of records is rejected after the catalog entry is committed. -/
def rowBigYear : Row :=
  { year := 100000, month := 1, trade_type := "IMPORT", hs_code := "0101",
    country := "Kenya", quantity := 1, description := "Horses",
    value_usd := 5 }

/-- The store after the failed attempt: the committed catalog entry remains,
no trade record exists. -/
def storeAfterBad : Store :=
  { hs := [{ code := "0101", description := "Horses" }], trades := [] }

/-- Witness for C3 at a concrete failing batch: the insert fails, zero trade
records are persisted, and the committed catalog entry remains. -/
theorem process_dataframe_atomic_witness :
    storeAfterBad.trades = storeEmpty.trades ∧ storeEmpty.hs <+: storeAfterBad.hs ∧
    ((UploadError.InsertError = UploadError.BuildError ∨
      UploadError.InsertError = UploadError.InsertError) →
      storeAfterBad.hs = storeEmpty.hs
        ++ newCatalogObjects storeEmpty (unique_hs_codes (normalizeRows [rowBigYear]))) :=
  (process_dataframe_atomic [rowBigYear] storeEmpty).1 .InsertError storeAfterBad (by decide)

/-! ## C6 — month-range filtering and the stored-month invariant -/

/-- Normalization touches no month: the kept months are exactly the months
of the original rows that pass the range check. -/
lemma normalizeRows_cons (r : Row) (rs : List Row) :
    normalizeRows (r :: rs)
      = if monthOk r then prepRow r :: normalizeRows rs else normalizeRows rs := by
  have hpm : monthOk (prepRow r) = monthOk r := rfl
  simp only [normalizeRows, List.map_cons, List.filter_cons, hpm]

lemma normalizeRows_months (df : List Row) :
    (normalizeRows df).map (fun r => r.month)
      = (df.filter monthOk).map (fun r => r.month) := by
  induction df with
  | nil => rfl
  | cons r rs ih =>
    rw [normalizeRows_cons, List.filter_cons]
    by_cases h : monthOk r
    · simp [h, ih, prepRow]
    · simp [h, ih]

/-- C6: given a store whose records all satisfy the month invariant, any
ingestion outcome still satisfies it, and on success the stored months are
exactly the prior months followed by the months of the uploaded rows lying in
[1,12] — rows outside the range are excluded, rows inside are all kept and
counted. -/
theorem month_range_invariant (df : List Row) (store : Store)
    (hstore : ∀ t ∈ store.trades, 1 ≤ t.month ∧ t.month ≤ 12) :
    (∀ t ∈ (process_dataframe df store).2.trades, 1 ≤ t.month ∧ t.month ≤ 12) ∧
    (∀ n s', process_dataframe df store = (.ok n, s') →
        s'.trades.map (fun t => t.month)
          = store.trades.map (fun t => t.month)
            ++ (df.filter monthOk).map (fun r => r.month) ∧
        n = (df.filter monthOk).length) := by
  have hkey : ∀ n s', process_dataframe df store = (.ok n, s') →
      s'.trades.map (fun t => t.month)
        = store.trades.map (fun t => t.month)
          ++ (df.filter monthOk).map (fun r => r.month) ∧
      n = (df.filter monthOk).length := by
    intro n s' h
    rcases (process_dataframe_spec df store).2 n s' h with ⟨ts, hb, h1, h2, -⟩
    have hm := buildTrades_months _ _ _ hb
    rw [normalizeRows_months] at hm
    constructor
    · rw [h1, List.map_append, hm]
    · rw [h2, ← List.length_map ts (fun t => t.month), hm, List.length_map]
  refine ⟨?_, hkey⟩
  intro t ht
  rcases hp : process_dataframe df store with ⟨res, s'⟩
  rw [hp] at ht
  cases res with
  | error e =>
    have := ((process_dataframe_spec df store).1 e s' hp).1
    rw [this] at ht
    exact hstore t ht
  | ok n =>
    rcases hkey n s' hp with ⟨hmap, -⟩
    have : t.month ∈ s'.trades.map (fun t => t.month) := List.mem_map_of_mem _ ht
    rw [hmap] at this
    rcases List.mem_append.mp this with hin | hin
    · rcases List.mem_map.mp hin with ⟨u, hu, he⟩
      exact he ▸ hstore u hu
    · rcases List.mem_map.mp hin with ⟨r, hr, he⟩
      have hok := List.of_mem_filter hr
      rw [← he]
      simpa [monthOk] using hok

/-- A well-formed upload row with month 12. -/
def rowM12 : Row :=
  { year := 2023, month := 12, trade_type := "EXPORT", hs_code := "0202",
    country := "Kenya", quantity := 1, description := "Goats",
    value_usd := 10 }

/-- The same upload row with the out-of-range month 13. -/
def rowM13 : Row :=
  { year := 2023, month := 13, trade_type := "EXPORT", hs_code := "0202",
    country := "Kenya", quantity := 1, description := "Goats",
    value_usd := 10 }

/-- The record the month-12 row is stored as. -/
def tM12 : TradeData :=
  { year := 2023, month := 12, trade_type := "EXPORT",
    hs_code := { code := "0202", description := "Goats" }, country := "Kenya",
    quantity := 1, unit := none, value_usd := 10 }

/-- The store resulting from the mixed-months batch: only the month-12 row
is kept. -/
def storeM : Store :=
  { hs := [{ code := "0202", description := "Goats" }], trades := [tM12] }

/-- Witness for C6 at a concrete batch holding months 12 and 13: exactly the
month-12 row is stored and counted. -/
theorem month_range_invariant_witness :
    storeM.trades.map (fun t => t.month)
      = storeEmpty.trades.map (fun t => t.month)
        ++ ([rowM12, rowM13].filter monthOk).map (fun r => r.month) ∧
    1 = ([rowM12, rowM13].filter monthOk).length :=
  (month_range_invariant [rowM12, rowM13] storeEmpty (by simp [storeEmpty])).2
    1 storeM (by decide)

/-! ## C5 — direction-split percentages -/

/-- Evaluation scheme for `round2` at a concrete rational: reduce the scaled
argument, round it as an integer, then read off the quotient. -/
lemma round2_eq (q p : ℚ) (n : ℤ) (r : ℚ) (hq : q * 100 = p) (hr : roundHE p = n)
    (hn : (n : ℚ) / 100 = r) : round2 q = r := by
  unfold round2
  rw [hq, hr, hn]

/-- A single import of value -100, making the cross-direction grand total
negative. -/
def tNeg : TradeData :=
  { year := 2023, month := 1, trade_type := "IMPORT", hs_code := hsHorses,
    country := "Kenya", quantity := 1, unit := none, value_usd := -100 }

/-- An import record of value 100 for the percentage example. -/
def tImp100 : TradeData :=
  { year := 2023, month := 1, trade_type := "IMPORT", hs_code := hsHorses,
    country := "Kenya", quantity := 1, unit := none, value_usd := 100 }

/-- An export record of value 300 for the percentage example. -/
def tExp300 : TradeData :=
  { year := 2023, month := 2, trade_type := "EXPORT", hs_code := hsHorses,
    country := "Nigeria", quantity := 1, unit := none, value_usd := 300 }

/-- C5 counterexample: on a view holding the single import of value -100 the
grand total is -100, which is not 0, so the claimed formula demands
round((-100)/(-100)*100, 2) = 100 — but the engine assigns 0, because its
guard requires a strictly positive grand total. -/
theorem trade_split_negative_counterexample :
    trade_split [tNeg] = [("IMPORT", -100, 0)] ∧
    total_trade [tNeg] ≠ 0 ∧
    round2 ((-100 : ℚ) / (-100) * 100) = 100 ∧ ((0 : ℚ) ≠ 100) := by
  have hb : trade_split_base [tNeg] = [("IMPORT", -100)] := by
    simp [trade_split_base, groupTotals, dropDuplicates, tNeg, hsHorses]
  have ht : total_trade [tNeg] = -100 := by
    rw [total_trade, hb]
    simp
  refine ⟨?_, by rw [ht]; norm_num, ?_, by norm_num⟩
  · rw [trade_split, hb, ht]
    norm_num
  · exact round2_eq _ 10000 10000 100 (by norm_num) (by decide) (by norm_num)

/-- C5 amended: every entry of the direction split carries the percentage
round(direction_total / grand_total * 100, 2) when the grand total is
strictly positive and 0 otherwise; on the 100-import / 300-export view the
split is IMPORT = 25.00, EXPORT = 75.00. -/
theorem trade_split_percentage :
    (∀ rs x, x ∈ trade_split rs →
        x.2.2 = if 0 < total_trade rs
                then round2 (x.2.1 / total_trade rs * 100) else 0) ∧
    trade_split [tImp100, tExp300] = [("IMPORT", 100, 25), ("EXPORT", 300, 75)] := by
  constructor
  · intro rs x hx
    simp only [trade_split, List.mem_map] at hx
    obtain ⟨item, -, rfl⟩ := hx
    rfl
  · have hb : trade_split_base [tImp100, tExp300] = [("IMPORT", 100), ("EXPORT", 300)] := by
      simp [trade_split_base, groupTotals, dropDuplicates, tImp100, tExp300, hsHorses]
    have ht : total_trade [tImp100, tExp300] = 400 := by
      rw [total_trade, hb]
      simp
      norm_num
    have e1 : round2 (25 : ℚ) = 25 :=
      round2_eq _ 2500 2500 25 (by norm_num) (by decide) (by norm_num)
    have e2 : round2 (75 : ℚ) = 75 :=
      round2_eq _ 7500 7500 75 (by norm_num) (by decide) (by norm_num)
    rw [trade_split, hb, ht]
    norm_num
    exact ⟨e1, e2⟩

/-- Witness for the amended C5 at the IMPORT entry of the concrete
100-import / 300-export view. -/
theorem trade_split_percentage_witness :
    (("IMPORT", (100 : ℚ), (25 : ℚ)) : String × ℚ × ℚ).2.2
      = if 0 < total_trade [tImp100, tExp300]
        then round2 ((("IMPORT", (100 : ℚ), (25 : ℚ)) : String × ℚ × ℚ).2.1
          / total_trade [tImp100, tExp300] * 100) else 0 := by
  refine trade_split_percentage.1 [tImp100, tExp300] _ ?_
  rw [trade_split_percentage.2]
  simp

/-! ## C7 — export surface vs the dashboard filter set -/

/-- Two sequential filters collapse to one conjunctive filter. -/
lemma filter_comm_and {α : Type} (p q : α → Bool) (l : List α) :
    (l.filter p).filter q = l.filter (fun a => p a && q a) := by
  induction l with
  | nil => rfl
  | cons a as ih =>
    by_cases hp : p a <;> by_cases hq : q a <;>
      simp [List.filter_cons, hp, hq, ih]

/-- Sequential filtering of the export view equals one pass with the
conjunction of its four predicates. -/
lemma export_seq_filter_eq (p : QueryParams) (l : List TradeData) :
    export_seq_filter p l = l.filter (fun t => exportPred p t) := by
  rcases p with ⟨y, m, tt, c, s, cr⟩
  simp only [exportPred]
  cases y <;> cases m <;> cases cr <;> cases c <;>
    simp [export_seq_filter, optB, filter_comm_and, Bool.and_assoc, Bool.and_comm,
      Bool.and_left_comm]

/-- Inserting keeps the length plus one. -/
lemma length_insertGT {α : Type} (gt : α → α → Bool) (x : α) (l : List α) :
    (insertGT gt x l).length = l.length + 1 := by
  induction l with
  | nil => rfl
  | cons y ys ih =>
    unfold insertGT
    by_cases h : gt x y <;> simp [h, ih]

/-- Sorting preserves the length. -/
lemma length_sortGT {α : Type} (gt : α → α → Bool) (l : List α) :
    (sortGT gt l).length = l.length := by
  have key : ∀ (l acc : List α),
      (l.foldl (fun acc x => insertGT gt x acc) acc).length = acc.length + l.length := by
    intro l
    induction l with
    | nil => intro acc; rfl
    | cons y ys ih =>
      intro acc
      simp only [List.foldl_cons, ih, length_insertGT, List.length_cons]
      omega
  simpa using key l []

/-- The dashboard query for direction EXPORT only. -/
def pDir : QueryParams := { trade_type := some "EXPORT" }

/-- C7 counterexample: with the filter parameter trade_type = EXPORT, the
filtered set of the view holds one record, but the export stream emits a row for
both stored records — the export surface ignores the trade-direction (and
search) parameters, so its rows are not one-per-matching-record for that
filter. -/
theorem export_ignores_direction_counterexample :
    (export_filtered_data pDir storeC1).2.length = 2 ∧
    (get_queryset pDir storeC1).length = 1 ∧ (2 : Nat) ≠ 1 := by
  refine ⟨by decide, by decide, by decide⟩

/-- C7 amended: the export stream carries the claimed header and exactly one
row per record matching the filters the export actually applies — year,
month, crop (exact description) and country, with trade direction and
free-text search ignored — in the default store descending
year/month order. -/
theorem export_surface_amended (p : QueryParams) (store : Store) :
    export_filtered_data p store
      = (export_header,
         (sortGT defaultGT (store.trades.filter (fun t => exportPred p t))).map toExportRow) ∧
    (export_filtered_data p store).2.length
      = (store.trades.filter (fun t => exportPred p t)).length := by
  constructor
  · rw [export_filtered_data, export_seq_filter_eq]
  · rw [export_filtered_data, export_seq_filter_eq]
    simp [length_sortGT]

/-! ## C8 — missing-column rejection -/

/-- An upload header lacking the year column. -/
def colsNoYear : List String :=
  ["month", "trade_type", "hs_code", "country", "quantity", "description",
   "value_usd"]

/-- An upload header lacking the month column. -/
def colsNoMonth : List String :=
  ["year", "trade_type", "hs_code", "country", "quantity", "description",
   "value_usd"]

/-- C8 counterexample: two uploads with different missing columns are
rejected with the identical error carrying the one fixed message, and that
message does not contain the name of the missing column — the failure does
not name the missing columns. -/
theorem missing_columns_message_counterexample :
    missingColumns colsNoYear = ["year"] ∧
    missingColumns colsNoMonth = ["month"] ∧
    upload_post colsNoYear [] storeEmpty = (.error .MissingColumnsError, storeEmpty) ∧
    upload_post colsNoMonth [] storeEmpty = (.error .MissingColumnsError, storeEmpty) ∧
    ¬ ("year".data <:+: missing_columns_message.data) := by
  refine ⟨by decide, by decide, by decide, by decide, by decide⟩

/-- C8 amended: whenever any required column is missing the upload is
rejected with the generic missing-columns error (whose message is fixed and
names no columns) and the store is left untouched. -/
theorem missing_columns_abort (cols : List String) (df : List Row) (store : Store)
    (h : missingColumns cols ≠ []) :
    upload_post cols df store = (.error .MissingColumnsError, store) := by
  have he : (missingColumns cols).isEmpty = false := by
    cases hm : missingColumns cols with
    | nil => exact absurd hm h
    | cons a l => rfl
  unfold upload_post
  rw [he]
  simp

/-- Witness for the amended C8 at the year-less header. -/
theorem missing_columns_abort_witness :
    upload_post colsNoYear [] storeEmpty = (.error .MissingColumnsError, storeEmpty) :=
  missing_columns_abort colsNoYear [] storeEmpty (by decide)

/-! ## C9 — encoding fallback chain -/

/-- C9 counterexample (negation of the failure clause of the claim): no input
whatsoever makes the decoder fail — the latin1 fallback decodes every byte
stream, so the chain can never be exhausted and DecodeError is
unreachable. -/
theorem decode_chain_never_fails :
    ¬ ∃ raw : List (Fin 256), ∃ e, read_csv_safely raw = .error e := by
  rintro ⟨raw, e, h⟩
  unfold read_csv_safely at h
  cases hu : utf8Decode raw with
  | some s =>
    rw [hu] at h
    exact absurd h (by simp)
  | none =>
    rw [hu] at h
    exact absurd h (by simp)

/-- C9 amended: the decoder tries UTF-8 first and returns its result when it
decodes; otherwise it returns the latin1 decoding, which succeeds on every
byte stream, so the third (cp1252) attempt is never reached and the decoder
never returns a decode error. -/
theorem decode_priority (raw : List (Fin 256)) :
    (∀ s, utf8Decode raw = some s → read_csv_safely raw = .ok s) ∧
    (utf8Decode raw = none → read_csv_safely raw = .ok (latin1Decode raw)) ∧
    (∀ e, read_csv_safely raw ≠ .error e) := by
  refine ⟨?_, ?_, ?_⟩
  · intro s hs
    unfold read_csv_safely
    rw [hs]
  · intro hn
    unfold read_csv_safely
    rw [hn]
  · intro e h
    unfold read_csv_safely at h
    cases hu : utf8Decode raw with
    | some s =>
      rw [hu] at h
      exact absurd h (by simp)
    | none =>
      rw [hu] at h
      exact absurd h (by simp)

/-- Witness for the amended C9: a valid UTF-8 byte and a latin1-only byte,
each decoded by the stated stage of the chain. -/
theorem decode_priority_witness :
    read_csv_safely [(65 : Fin 256)] = .ok [65] ∧
    read_csv_safely [(233 : Fin 256)] = .ok (latin1Decode [(233 : Fin 256)]) :=
  ⟨(decode_priority [(65 : Fin 256)]).1 [65] (by decide),
   (decode_priority [(233 : Fin 256)]).2.1 (by decide)⟩

/-! ## C10 — blank countries and the top-countries breakdown -/

/-- Membership through one insertion. -/
lemma mem_insertGT {α : Type} (gt : α → α → Bool) (a x : α) (l : List α)
    (h : x ∈ insertGT gt a l) : x = a ∨ x ∈ l := by
  induction l with
  | nil => simpa [insertGT] using h
  | cons y ys ih =>
    unfold insertGT at h
    by_cases hg : gt a y
    · rw [if_pos hg] at h
      rcases List.mem_cons.mp h with h1 | h1
      · exact Or.inl h1
      · exact Or.inr h1
    · rw [if_neg hg] at h
      rcases List.mem_cons.mp h with h1 | h1
      · exact Or.inr (h1 ▸ List.mem_cons_self y ys)
      · rcases ih h1 with h2 | h2
        · exact Or.inl h2
        · exact Or.inr (List.mem_cons_of_mem y h2)

/-- Membership through the sort: nothing new appears. -/
lemma mem_sortGT {α : Type} (gt : α → α → Bool) (l : List α) (x : α)
    (h : x ∈ sortGT gt l) : x ∈ l := by
  have key : ∀ (l acc : List α), x ∈ l.foldl (fun acc y => insertGT gt y acc) acc →
      x ∈ acc ∨ x ∈ l := by
    intro l
    induction l with
    | nil => intro acc h; exact Or.inl h
    | cons y ys ih =>
      intro acc h
      rcases ih _ h with h1 | h1
      · rcases mem_insertGT _ _ _ _ h1 with h2 | h2
        · exact Or.inr (h2 ▸ List.mem_cons_self y ys)
        · exact Or.inl h2
      · exact Or.inr (List.mem_cons_of_mem y h1)
  rcases key l [] h with h1 | h1
  · exact absurd h1 (List.not_mem_nil x)
  · exact h1

/-- Membership through deduplication: nothing new appears. -/
lemma mem_dropDuplicates {α : Type} [DecidableEq α] (l : List α) (x : α)
    (h : x ∈ dropDuplicates l) : x ∈ l := by
  have key : ∀ (l acc : List α),
      x ∈ l.foldl (fun acc y => if y ∈ acc then acc else acc ++ [y]) acc →
      x ∈ acc ∨ x ∈ l := by
    intro l
    induction l with
    | nil => intro acc h; exact Or.inl h
    | cons y ys ih =>
      intro acc h
      rcases ih _ h with h1 | h1
      · by_cases hy : y ∈ acc
        · simp only [hy, if_true] at h1
          exact Or.inl h1
        · simp only [hy, if_false] at h1
          rcases List.mem_append.mp h1 with h2 | h2
          · exact Or.inl h2
          · rcases List.mem_singleton.mp h2 with rfl
            exact Or.inr (List.mem_cons_self x ys)
      · exact Or.inr (List.mem_cons_of_mem y h1)
  rcases key l [] h with h1 | h1
  · exact absurd h1 (List.not_mem_nil x)
  · exact h1

/-- Every group row is keyed by the key of some underlying record. -/
lemma mem_groupTotals {κ : Type} [DecidableEq κ] (key : TradeData → κ)
    (rs : List TradeData) (x : κ × ℚ) (h : x ∈ groupTotals key rs) :
    ∃ t ∈ rs, key t = x.1 := by
  unfold groupTotals at h
  rcases List.mem_map.mp h with ⟨k, hk, rfl⟩
  rcases List.mem_map.mp (mem_dropDuplicates _ _ hk) with ⟨t, ht, rfl⟩
  exact ⟨t, ht, rfl⟩

/-- A record of value 100 whose country label is the empty string. -/
def tBlankCountry : TradeData :=
  { year := 2023, month := 1, trade_type := "IMPORT", hs_code := hsHorses,
    country := "", quantity := 1, unit := none, value_usd := 100 }

/-- A record of value 300 attributed to Kenya. -/
def tKenya300 : TradeData :=
  { year := 2023, month := 2, trade_type := "EXPORT", hs_code := hsHorses,
    country := "Kenya", quantity := 1, unit := none, value_usd := 300 }

/-- A two-record store with one blank-country record. -/
def store10 : Store := { hs := [hsHorses], trades := [tBlankCountry, tKenya300] }

/-- C10: the top-countries breakdown never lists a blank country label, while
on the concrete store with one blank-country import of 100 and one Kenyan
export of 300 the blank record still contributes to every other metric — the
totals, the record and quantity counts, the direction split, the commodity
top-10 and the concentration share — so the listed countries sum to 300,
strictly less than the total value 400, with only two distinct countries in
the store. -/
theorem top_countries_blank_exclusion :
    (∀ rs x, x ∈ topCountries rs → x.1 ≠ "") ∧
    (topCountries store10.trades = [("Kenya", 300)] ∧
     totalValue store10.trades = 400 ∧
     totalRecords store10.trades = 2 ∧
     totalQuantity store10.trades = 2 ∧
     ((topCountries store10.trades).map (fun i => i.2)).sum < totalValue store10.trades ∧
     (dropDuplicates (store10.trades.map (fun t => t.country))).length = 2 ∧
     (2 : Nat) < 10 ∧
     topHsCodes store10.trades = [(("0101", "Horses"), 400)] ∧
     trade_split store10.trades = [("IMPORT", 100, 25), ("EXPORT", 300, 75)] ∧
     concentration store10.trades = 100) := by
  have hfil : store10.trades.filter (fun t => ! (t.country == "")) = [tKenya300] := by
    decide
  have hgc : groupTotals (fun t => t.country) [tKenya300] = [("Kenya", 300)] := by
    simp [groupTotals, dropDuplicates, tKenya300]
  have htc : topCountries store10.trades = [("Kenya", 300)] := by
    rw [topCountries, hfil, hgc]
    decide
  have hgh : groupTotals (fun t => (t.hs_code.code, t.hs_code.description)) store10.trades
      = [(("0101", "Horses"), 400)] := by
    simp [groupTotals, dropDuplicates, store10, tBlankCountry, tKenya300, hsHorses]
    norm_num
  have hth : topHsCodes store10.trades = [(("0101", "Horses"), 400)] := by
    rw [topHsCodes, hgh]
    decide
  have hval : totalValue store10.trades = 400 := by
    simp [totalValue, djSum, store10, tBlankCountry, tKenya300]
    norm_num
  constructor
  · intro rs x hx
    rcases mem_groupTotals _ _ _ (mem_sortGT _ _ _ (List.take_subset 10 _ hx))
      with ⟨t, ht, hk⟩
    have hcb := List.of_mem_filter ht
    rw [← hk]
    simpa using hcb
  refine ⟨htc, hval, by decide, ?_, ?_, by decide, by decide, hth, ?_, ?_⟩
  · simp [totalQuantity, djSum, store10, tBlankCountry, tKenya300]
    norm_num
  · rw [htc, hval]
    norm_num
  · have hb : trade_split_base store10.trades = [("IMPORT", 100), ("EXPORT", 300)] := by
      simp [trade_split_base, groupTotals, dropDuplicates, store10, tBlankCountry,
        tKenya300]
    have ht4 : total_trade store10.trades = 400 := by
      rw [total_trade, hb]
      simp
      norm_num
    have e1 : round2 (25 : ℚ) = 25 :=
      round2_eq _ 2500 2500 25 (by norm_num) (by decide) (by norm_num)
    have e2 : round2 (75 : ℚ) = 75 :=
      round2_eq _ 7500 7500 75 (by norm_num) (by decide) (by norm_num)
    rw [trade_split, hb, ht4]
    norm_num
    exact ⟨e1, e2⟩
  · have e3 : round2 (100 : ℚ) = 100 :=
      round2_eq _ 10000 10000 100 (by norm_num) (by decide) (by norm_num)
    simp only [concentration, hth]
    rw [show (djSum (store10.trades.map fun t => t.value_usd)).getD 0 = 400 from by
      simp [djSum, store10, tBlankCountry, tKenya300]; norm_num]
    norm_num
    exact e3

/-- Witness for C10 at the one listed country row of the concrete store. -/
theorem top_countries_blank_exclusion_witness :
    (("Kenya", (300 : ℚ)) : String × ℚ).1 ≠ "" := by
  refine top_countries_blank_exclusion.1 store10.trades _ ?_
  rw [top_countries_blank_exclusion.2.1]
  simp

end AgricTrade
